import Mathlib

/-!
Shallow embedding of `src/src/rust/src/lib.rs`, an FFI boundary exposing
multiplication over the scalar field `pasta_curves::Fq` (the base field of the
Vesta curve, modulus `q = 0x40000000000000000000000000000000224698fc0994a8dd8c46eb2100000001`).

Modelling notes on the external crate `pasta_curves` (the "trusted field
library" of the spec), whose semantics the Rust code depends on:

* An `Fq` is four 64-bit limbs that are, per the crate's own documentation,
  "always in Montgomery form": the limbs of an element of value `a` hold the
  256-bit integer `a * R mod q` with `R = 2^256`.  We embed `Fq` as a
  structure holding that 256-bit Montgomery integer as a `Nat` (`mont`).
* `Fq` multiplication is the 512-bit schoolbook product followed by
  `montgomery_reduce`: with `m = t * (-q⁻¹) mod 2^256`, the reduced value is
  `(t + m*q) / 2^256` truncated to 256 bits (the final carry is dropped),
  followed by one conditional subtraction of the modulus.  `montRed` below is
  that computation; the per-limb interleaved form the crate uses computes the
  same `m`, limb by limb.
* `to_repr`, hence `PrimeFieldBits::to_le_bits`, converts out of Montgomery
  form (a `montgomery_reduce` of the bare limbs) and yields the canonical
  little-endian byte/limb decomposition of the element's value.
* `std::mem::transmute::<FFIScalar, Fq>` reinterprets the raw caller limbs as
  the Montgomery limbs of an element, with no conversion.

Machine integers are `Nat` with explicit `% 2^64` / `% 2^256` where the Rust
types truncate.  Nullable pointers are `Option` arguments; the one observable
failure of the code (`Option::expect` on a null input pointer, a fail-fast
panic) and the unchecked dereference of the output pointer are reflected in
the `FFIOutcome` type.
-/

/-- Modulus of `pasta_curves::Fq` (base field of the Vesta curve). -/
def MODULUS : ℕ := 28948022309329048855892746252171976963363056481941647379679742748393362948097

/-- The Montgomery radix used by `pasta_curves`: `R = 2^256`. -/
def RADIX : ℕ := 2 ^ 256

/-- Inverse of the Montgomery radix modulo `MODULUS` (so `RINV * 2^256 ≡ 1 [MOD q]`). -/
def RINV : ℕ := 14238205147845459960272226733876560297615832660064601289232577236146637664127

/-- Negated inverse of the modulus modulo `2^256`, the aggregate of the crate's
per-limb constant `INV`; satisfies `MODULUS * NPRIME ≡ -1 [MOD 2^256]`. -/
def NPRIME : ℕ := 56952820591381839841088906935506241190373694517665104195407146251032297734143

/-- Certificate that `RINV` is what it claims to be. -/
theorem RINV_spec : RINV * RADIX % MODULUS = 1 := by decide

/-- Certificate that `NPRIME` is what it claims to be. -/
theorem NPRIME_spec : MODULUS * NPRIME % RADIX = RADIX - 1 := by decide

/-- The Rust `#[repr(C, packed)] struct FFIScalar([u64; 4])`: a 32-byte buffer
of four little-endian 64-bit limbs. -/
structure FFIScalar where
  l0 : ℕ
  l1 : ℕ
  l2 : ℕ
  l3 : ℕ
deriving DecidableEq, Repr

/-- The 256-bit value of a buffer: little-endian recomposition of the four
64-bit limbs (each limb is a `u64`, hence reduced `% 2^64`). -/
def limbVal (b : FFIScalar) : ℕ :=
  b.l0 % 2 ^ 64 + 2 ^ 64 * (b.l1 % 2 ^ 64) + 2 ^ 128 * (b.l2 % 2 ^ 64) + 2 ^ 192 * (b.l3 % 2 ^ 64)

/-- Little-endian limb decomposition of a 256-bit value into a buffer. -/
def toLimbs (n : ℕ) : FFIScalar :=
  ⟨n % 2 ^ 64, n / 2 ^ 64 % 2 ^ 64, n / 2 ^ 128 % 2 ^ 64, n / 2 ^ 192 % 2 ^ 64⟩

/-- An element of `pasta_curves::Fq`.  The crate stores every element in
Montgomery form; `mont` is the 256-bit integer held in its four limbs, so the
element's field value is `mont * R⁻¹ mod q`. -/
structure Fq where
  mont : ℕ
deriving DecidableEq, Repr

/-- Montgomery reduction as implemented by the crate (`montgomery_reduce`):
folds in `m * MODULUS` with `m = t * NPRIME mod 2^256`, divides by the radix,
truncates to 256 bits (the hardware carry out of the top limb is dropped), and
conditionally subtracts the modulus once. -/
def montRed (t : ℕ) : ℕ :=
  let m := t * NPRIME % RADIX
  let r := (t + m * MODULUS) / RADIX % RADIX
  if MODULUS ≤ r then r - MODULUS else r

/-- Field multiplication `scalar1 * scalar2` of two `Fq` values: full 512-bit
product of the Montgomery limbs, then Montgomery reduction. -/
def Fq.mul (a b : Fq) : Fq := ⟨montRed (a.mont * b.mont)⟩

/-- The canonical integer value of an element, as computed by the crate's
`to_repr` (a Montgomery reduction of the bare limbs). -/
def Fq.to_repr (a : Fq) : ℕ := montRed a.mont

/-- Embedding of `FFIScalar::from_field_element`: `element.to_le_bits()`
yields the canonical little-endian bit decomposition of the element's value
(`to_le_bits` goes through `to_repr`), and `into_inner` exposes its four
64-bit limbs. -/
def FFIScalar.from_field_element (element : Fq) : FFIScalar :=
  toLimbs element.to_repr

/-- Embedding of `ffi_to_field_element`: `scalar.as_ref().expect("Big trouble")`
panics (fail-fast) when the pointer is null, and otherwise the buffer's limbs
are transmuted, unconverted, into the Montgomery limbs of an `Fq`. -/
def ffi_to_field_element (scalar : Option FFIScalar) : Except String Fq :=
  match scalar with
  | none => .error "Big trouble"
  | some bytes => .ok ⟨limbVal bytes⟩

instance {ε α : Type} [DecidableEq ε] [DecidableEq α] : DecidableEq (Except ε α) := fun a b =>
  match a, b with
  | .ok x, .ok y =>
    if h : x = y then .isTrue (congrArg Except.ok h) else .isFalse (fun hh => h (Except.ok.inj hh))
  | .error x, .error y =>
    if h : x = y then .isTrue (congrArg Except.error h)
    else .isFalse (fun hh => h (Except.error.inj hh))
  | .ok _, .error _ => .isFalse (fun hh => Except.noConfusion hh)
  | .error _, .ok _ => .isFalse (fun hh => Except.noConfusion hh)

/-- Observable outcome of one `librustmonero_mul` call: a normal return that
wrote `r` to the output buffer, a fail-fast process abort raised by a panic,
or undefined behavior (the code dereferences the output pointer with no null
check). -/
inductive FFIOutcome where
  | ok (r : FFIScalar)
  | abortPanic (msg : String)
  | undef
deriving DecidableEq, Repr

/-- Whether an outcome is the fail-fast abort of a panic. -/
def FFIOutcome.isAbortPanic : FFIOutcome → Bool
  | .abortPanic _ => true
  | _ => false

/-- The buffer value `librustmonero_mul` writes on the happy path: decode both
inputs, multiply, re-encode. -/
def mulBuffer (b1 b2 : FFIScalar) : FFIScalar :=
  FFIScalar.from_field_element (Fq.mul ⟨limbVal b1⟩ ⟨limbVal b2⟩)

/-- Embedding of `librustmonero_mul(s1, s2, result)`.  The two inputs are
decoded in order (a null input pointer panics inside `ffi_to_field_element`,
aborting the process); then `&mut *result` dereferences the output pointer
with no check, so a null output pointer is undefined behavior; otherwise the
encoded product overwrites the output buffer. -/
def librustmonero_mul (s1 s2 result : Option FFIScalar) : FFIOutcome :=
  match ffi_to_field_element s1 with
  | .error msg => .abortPanic msg
  | .ok scalar1 =>
    match ffi_to_field_element s2 with
    | .error msg => .abortPanic msg
    | .ok scalar2 =>
      match result with
      | none => .undef
      | some _ => .ok (FFIScalar.from_field_element (Fq.mul scalar1 scalar2))

/-- Caller-side memory for one call: the three caller-owned 32-byte buffers
(spec preconditions make them valid and pairwise disjoint). -/
structure CallState where
  s1 : FFIScalar
  s2 : FFIScalar
  out : FFIScalar
deriving DecidableEq, Repr

/-- Effect of a successful `librustmonero_mul` call on the caller's memory:
the single store `*result = ...` replaces the output buffer. -/
def runMul (st : CallState) : CallState :=
  { st with out := mulBuffer st.s1 st.s2 }

/-- The multiplicative identity of `Fq` as the crate represents it: Montgomery
limbs `R mod q` (the crate's constant `R`, equal to `Fq::one()`), canonical
value `1`. -/
def fqOne : Fq := ⟨2 ^ 256 % MODULUS⟩

/-- Auxiliary bound: one step of the reduction quotient never exceeds the
modulus when the input fits in one radix. -/
theorem redc_div_le (t m M R : ℕ) (hR : 0 < R) (ht : t < R) (hm : m < R) :
    (t + m * M) / R ≤ M := by
  have h1 : m * M ≤ (R - 1) * M := Nat.mul_le_mul_right M (by omega)
  have h3 : (R - 1) * M ≤ R * M := Nat.mul_le_mul_right M (Nat.sub_le R 1)
  have h5 : t + m * M < R * (M + 1) := by
    have h4 : R * (M + 1) = R * M + R := by ring
    omega
  exact Nat.le_of_lt_succ (Nat.div_lt_of_lt_mul h5)

/-- A Montgomery reduction always fits in 256 bits (it is stored back into
four limbs). -/
theorem montRed_lt_radix (t : ℕ) : montRed t < RADIX := by
  unfold montRed
  dsimp only
  have h : (t + t * NPRIME % RADIX * MODULUS) / RADIX % RADIX < RADIX :=
    Nat.mod_lt _ (by decide)
  have hM : (0:ℕ) < MODULUS := by decide
  split <;> omega

/-- A Montgomery reduction of a 256-bit input is fully reduced: the quotient
is at most the modulus and the conditional subtraction canonicalizes it.
This is the reduction `to_repr` performs, so encoded buffers are canonical. -/
theorem montRed_lt_modulus (t : ℕ) (ht : t < RADIX) : montRed t < MODULUS := by
  unfold montRed
  dsimp only
  have hm : t * NPRIME % RADIX < RADIX := Nat.mod_lt _ (by decide)
  have hd := redc_div_le t (t * NPRIME % RADIX) MODULUS RADIX (by decide) ht hm
  have hMR : MODULUS < RADIX := by decide
  have hM0 : (0:ℕ) < MODULUS := by decide
  have hmod : (t + t * NPRIME % RADIX * MODULUS) / RADIX % RADIX
      = (t + t * NPRIME % RADIX * MODULUS) / RADIX := Nat.mod_eq_of_lt (by omega)
  rw [hmod]
  split <;> omega

/-- A buffer's value always fits in 256 bits. -/
theorem limbVal_lt (b : FFIScalar) : limbVal b < 2 ^ 256 := by
  unfold limbVal
  have h0 : b.l0 % 2 ^ 64 < 2 ^ 64 := Nat.mod_lt _ (by norm_num)
  have h1 : b.l1 % 2 ^ 64 < 2 ^ 64 := Nat.mod_lt _ (by norm_num)
  have h2 : b.l2 % 2 ^ 64 < 2 ^ 64 := Nat.mod_lt _ (by norm_num)
  have h3 : b.l3 % 2 ^ 64 < 2 ^ 64 := Nat.mod_lt _ (by norm_num)
  omega

/-- Limb decomposition is lossless on 256-bit values. -/
theorem limbVal_toLimbs (n : ℕ) (hn : n < 2 ^ 256) : limbVal (toLimbs n) = n := by
  unfold limbVal toLimbs
  dsimp only
  omega

/-- Whatever the inputs, `mulBuffer` writes the canonical limbs of a reduced
field element: the final `to_repr` reduction leaves a value below the
modulus. -/
theorem mulBuffer_canonical (b1 b2 : FFIScalar) : limbVal (mulBuffer b1 b2) < MODULUS := by
  have hmont : montRed (limbVal b1 * limbVal b2) < RADIX := montRed_lt_radix _
  have hrepr : montRed (montRed (limbVal b1 * limbVal b2)) < MODULUS :=
    montRed_lt_modulus _ hmont
  have hlt : montRed (montRed (limbVal b1 * limbVal b2)) < 2 ^ 256 :=
    lt_trans hrepr (by decide)
  show limbVal (toLimbs (montRed (montRed (limbVal b1 * limbVal b2)))) < MODULUS
  rw [limbVal_toLimbs _ hlt]
  exact hrepr

/-- Reduction of zero is zero. -/
theorem montRed_zero : montRed 0 = 0 := by decide

/-- The zero value decomposes into the all-zero buffer. -/
theorem toLimbs_zero : toLimbs 0 = ⟨0, 0, 0, 0⟩ := by decide

/-- C1: the claim states that `ffi_to_field_element` after
`FFIScalar.from_field_element` is the identity on canonical field elements.
It is not: encoding the field's one (`fqOne`, canonical value 1) yields the
buffer `[1,0,0,0]`, and decoding that buffer transmutes it into the element
with Montgomery limbs `1` — a different element, whose canonical value
(`R⁻¹ mod q`) is not 1.  The round trip converts out of Montgomery form on
encode but skips the matching conversion into Montgomery form on decode. -/
theorem decode_encode_roundtrip_fails :
    Fq.to_repr fqOne = 1 ∧
    FFIScalar.from_field_element fqOne = ⟨1, 0, 0, 0⟩ ∧
    ffi_to_field_element (some (FFIScalar.from_field_element fqOne)) = Except.ok ⟨1⟩ ∧
    (⟨1⟩ : Fq) ≠ fqOne ∧
    Fq.to_repr ⟨1⟩ ≠ 1 := by decide

/-- C2: multiplying the buffers `[2,0,0,0]` and `[3,0,0,0]` does not produce
`[6,0,0,0]`: because the inputs are reinterpreted as Montgomery limbs without
conversion, the call writes the canonical limbs of `6 * R⁻² mod q` instead. -/
theorem mul_two_three_output :
    librustmonero_mul (some ⟨2, 0, 0, 0⟩) (some ⟨3, 0, 0, 0⟩) (some ⟨0, 0, 0, 0⟩)
      = FFIOutcome.ok (toLimbs (6 * RINV * RINV % MODULUS)) ∧
    librustmonero_mul (some ⟨2, 0, 0, 0⟩) (some ⟨3, 0, 0, 0⟩) (some ⟨0, 0, 0, 0⟩)
      ≠ FFIOutcome.ok ⟨6, 0, 0, 0⟩ := by decide

/-- C3: squaring the encoding of `q - 1` does not yield a value congruent to
1 modulo the modulus: the call writes the canonical limbs of
`(q-1)² * R⁻² ≡ R⁻² mod q`, which is not 1. -/
theorem mul_pminus1_sq_output :
    librustmonero_mul (some (toLimbs (MODULUS - 1))) (some (toLimbs (MODULUS - 1)))
        (some ⟨0, 0, 0, 0⟩)
      = FFIOutcome.ok (toLimbs (RINV * RINV % MODULUS)) ∧
    limbVal (toLimbs (RINV * RINV % MODULUS)) % MODULUS ≠ 1 % MODULUS := by decide

/-- C4: multiplying by the encoding of the multiplicative identity is not the
identity map.  The identity encodes as `[1,0,0,0]` (first conjunct), yet
multiplying `[1,0,0,0]` by it returns the canonical limbs of `R⁻² mod q`,
not `[1,0,0,0]`. -/
theorem mul_by_one_not_identity :
    FFIScalar.from_field_element fqOne = ⟨1, 0, 0, 0⟩ ∧
    librustmonero_mul (some ⟨1, 0, 0, 0⟩) (some ⟨1, 0, 0, 0⟩) (some ⟨0, 0, 0, 0⟩)
      ≠ FFIOutcome.ok ⟨1, 0, 0, 0⟩ := by decide

/-- C5: `librustmonero_mul` is commutative in its two input buffers — the
512-bit product fed to the Montgomery reduction is the same either way — so
the written output buffers coincide for every pair of inputs. -/
theorem librustmonero_mul_comm (b1 b2 : FFIScalar) (out : Option FFIScalar) :
    librustmonero_mul (some b1) (some b2) out = librustmonero_mul (some b2) (some b1) out := by
  cases out with
  | none => rfl
  | some o => simp only [librustmonero_mul, ffi_to_field_element, Fq.mul, Nat.mul_comm]

/-- C6: multiplying any buffer by the zero encoding `[0,0,0,0]` writes the
zero encoding: the 512-bit product is 0, and reducing and re-encoding 0
yields the all-zero buffer. -/
theorem librustmonero_mul_zero_absorb (b out : FFIScalar) :
    librustmonero_mul (some b) (some ⟨0, 0, 0, 0⟩) (some out) = FFIOutcome.ok ⟨0, 0, 0, 0⟩ := by
  have h0 : limbVal ⟨0, 0, 0, 0⟩ = 0 := by decide
  simp only [librustmonero_mul, ffi_to_field_element, Fq.mul, h0, Nat.mul_zero,
    FFIScalar.from_field_element, Fq.to_repr, montRed_zero, toLimbs_zero]

/-- C7 (amended): a null `s1` or `s2` pointer hits `expect("Big trouble")`
inside `ffi_to_field_element` and aborts the process fail-fast; but a null
`result` pointer is dereferenced by `&mut *result` with no check at all —
undefined behavior, not a guaranteed diagnostic abort. -/
theorem null_pointer_outcomes (s2 res : Option FFIScalar) (b1 b2 : FFIScalar) :
    librustmonero_mul none s2 res = FFIOutcome.abortPanic "Big trouble" ∧
    librustmonero_mul (some b1) none res = FFIOutcome.abortPanic "Big trouble" ∧
    librustmonero_mul (some b1) (some b2) none = FFIOutcome.undef :=
  ⟨rfl, rfl, rfl⟩

/-- C7 counterexample: with valid inputs and a null `result` pointer the call
does not reach any fail-fast abort — no code checks `result`, so the write is
an unchecked null dereference. -/
theorem null_result_no_abort :
    (librustmonero_mul (some ⟨0, 0, 0, 0⟩) (some ⟨0, 0, 0, 0⟩) none).isAbortPanic = false := by
  decide

/-- C8: a successful call leaves both input buffers untouched — the body's
only store is `*result = ...` — and the output buffer receives exactly the
encoded product. -/
theorem librustmonero_mul_frame (st : CallState) :
    (runMul st).s1 = st.s1 ∧ (runMul st).s2 = st.s2 ∧
    librustmonero_mul (some st.s1) (some st.s2) (some st.out) = FFIOutcome.ok ((runMul st).out) :=
  ⟨rfl, rfl, rfl⟩

/-- C9: on canonical inputs the operation is pure, deterministic and total:
the call always returns normally with a written result, the result does not
depend on the prior contents of the output buffer (so equal inputs give equal
outputs on any two runs), and the written value is itself a canonical field
element. -/
theorem librustmonero_mul_pure_total (b1 b2 out out' : FFIScalar)
    (h1 : limbVal b1 < MODULUS) (h2 : limbVal b2 < MODULUS) :
    ∃ r, librustmonero_mul (some b1) (some b2) (some out) = FFIOutcome.ok r ∧
      librustmonero_mul (some b1) (some b2) (some out') = FFIOutcome.ok r ∧
      limbVal r < MODULUS :=
  ⟨mulBuffer b1 b2, rfl, rfl, mulBuffer_canonical b1 b2⟩

/-- C9 witness: the theorem applied at the concrete canonical inputs 2 and 3,
with two different prior output-buffer contents. -/
theorem librustmonero_mul_pure_total_witness :
    ∃ r, librustmonero_mul (some ⟨2, 0, 0, 0⟩) (some ⟨3, 0, 0, 0⟩) (some ⟨0, 0, 0, 0⟩)
        = FFIOutcome.ok r ∧
      librustmonero_mul (some ⟨2, 0, 0, 0⟩) (some ⟨3, 0, 0, 0⟩) (some ⟨7, 7, 7, 7⟩)
        = FFIOutcome.ok r ∧
      limbVal r < MODULUS :=
  librustmonero_mul_pure_total ⟨2, 0, 0, 0⟩ ⟨3, 0, 0, 0⟩ ⟨0, 0, 0, 0⟩ ⟨7, 7, 7, 7⟩
    (by decide) (by decide)

/-- C10: for every pair of input bit patterns — canonical or not — the buffer
written to the output is the canonical representation of some field element:
its 256-bit little-endian value is strictly below the modulus, because the
result is re-encoded through `to_repr`'s full Montgomery reduction. -/
theorem librustmonero_mul_output_canonical (b1 b2 out : FFIScalar) :
    ∃ r, librustmonero_mul (some b1) (some b2) (some out) = FFIOutcome.ok r ∧
      limbVal r < MODULUS :=
  ⟨mulBuffer b1 b2, rfl, mulBuffer_canonical b1 b2⟩
